import Mathlib

/-!
Verification of the ELF64 dependency lister (src/main.rs, src/imp/elf64.rs).

The Rust code is embedded shallowly:
* a byte buffer is a `List Nat` (each element a byte value);
* Rust panics (out-of-range slice indexing, `try_into().unwrap()`,
  `expect`, `String::from_utf8(..).unwrap()`, `chunks(0)`) are modelled by
  `none` in an `Option` result;
* strings are kept as byte lists; `String::from_utf8` is modelled by a
  UTF-8 validity check on the bytes;
* index arithmetic is carried out in `Nat` (the Rust code computes the
  same sums in `usize`; in every claim below the relevant ranges are
  within the buffer, far below 2^64).
-/

/-- Little-endian value of a byte list: byte 0 is the least significant. -/
def leVal : List Nat → Nat
  | [] => 0
  | b :: rest => b + 256 * leVal rest

/-- Rust slice indexing `&l[a..b]`: panics (`none`) unless `a ≤ b ≤ l.length`. -/
def sliceRange (l : List Nat) (a b : Nat) : Option (List Nat) :=
  if a ≤ b ∧ b ≤ l.length then some ((l.drop a).take (b - a)) else none

/-- Fuel-driven worker for `chunks`; fuel is initialised to the list length. -/
def chunksF : Nat → Nat → List α → List (List α)
  | _, _, [] => []
  | 0, _, _ :: _ => []
  | fuel + 1, n, a :: l => (a :: l).take n :: chunksF fuel n ((a :: l).drop n)

/-- Rust `slice::chunks n`: splits into consecutive chunks of length `n`,
the last chunk possibly shorter.  Only used with `n > 0` (Rust `chunks(0)`
panics; the embedding guards that case at each call site). -/
def chunks (n : Nat) (l : List α) : List (List α) := chunksF l.length n l

/-- `Iterator::map(f).collect()` where each `f` application may panic:
any `none` makes the whole traversal `none`. -/
def mapOpt (f : α → Option β) : List α → Option (List β)
  | [] => some []
  | a :: l =>
    match f a, mapOpt f l with
    | some b, some bs => some (b :: bs)
    | _, _ => none

/-- `BufRead::read_until 0`: collects bytes up to AND INCLUDING the first
zero byte; if no zero byte occurs, collects everything up to the end. -/
def readUntilNul : List Nat → List Nat
  | [] => []
  | b :: rest => if b = 0 then [0] else b :: readUntilNul rest

/-- A UTF-8 continuation byte. -/
def utf8Cont (b : Nat) : Bool := decide (0x80 ≤ b ∧ b ≤ 0xBF)

/-- Fuel-driven UTF-8 validity check (the fuel is initialised to the list
length and every step consumes at least one byte, so fuel never runs out). -/
def utf8ValidF : Nat → List Nat → Bool
  | _, [] => true
  | 0, _ :: _ => false
  | fuel + 1, b :: rest =>
    if b ≤ 0x7F then utf8ValidF fuel rest
    else if 0xC2 ≤ b ∧ b ≤ 0xDF then
      match rest with
      | c1 :: r => utf8Cont c1 && utf8ValidF fuel r
      | [] => false
    else if b = 0xE0 then
      match rest with
      | c1 :: c2 :: r => decide (0xA0 ≤ c1 ∧ c1 ≤ 0xBF) && utf8Cont c2 && utf8ValidF fuel r
      | _ => false
    else if 0xE1 ≤ b ∧ b ≤ 0xEC then
      match rest with
      | c1 :: c2 :: r => utf8Cont c1 && utf8Cont c2 && utf8ValidF fuel r
      | _ => false
    else if b = 0xED then
      match rest with
      | c1 :: c2 :: r => decide (0x80 ≤ c1 ∧ c1 ≤ 0x9F) && utf8Cont c2 && utf8ValidF fuel r
      | _ => false
    else if 0xEE ≤ b ∧ b ≤ 0xEF then
      match rest with
      | c1 :: c2 :: r => utf8Cont c1 && utf8Cont c2 && utf8ValidF fuel r
      | _ => false
    else if b = 0xF0 then
      match rest with
      | c1 :: c2 :: c3 :: r =>
        decide (0x90 ≤ c1 ∧ c1 ≤ 0xBF) && utf8Cont c2 && utf8Cont c3 && utf8ValidF fuel r
      | _ => false
    else if 0xF1 ≤ b ∧ b ≤ 0xF3 then
      match rest with
      | c1 :: c2 :: c3 :: r => utf8Cont c1 && utf8Cont c2 && utf8Cont c3 && utf8ValidF fuel r
      | _ => false
    else if b = 0xF4 then
      match rest with
      | c1 :: c2 :: c3 :: r =>
        decide (0x80 ≤ c1 ∧ c1 ≤ 0x8F) && utf8Cont c2 && utf8Cont c3 && utf8ValidF fuel r
      | _ => false
    else false

/-- `str::from_utf8` validity of a byte sequence. -/
def utf8Valid (l : List Nat) : Bool := utf8ValidF l.length l

/-! ## Data model (src/imp/elf64.rs) -/

/-- Segment type of a program header entry (`ElfSegmentType`). -/
inductive ElfSegmentType
  | PtDynamic
  | Irrelevant
deriving DecidableEq

/-- `impl From u32 for ElfSegmentType`: raw value 2 is the dynamic segment. -/
def ElfSegmentType.fromVal (value : Nat) : ElfSegmentType :=
  if value = 0x02 then ElfSegmentType.PtDynamic else ElfSegmentType.Irrelevant

/-- Dynamic-section entry tag (`DynSectionTag`). -/
inductive DynSectionTag
  | DtNeeded
  | DtStrTab
  | DtStrSz
  | Irrelevant
deriving DecidableEq

/-- `impl From u64 for DynSectionTag`: 1 is DT_NEEDED, 5 is DT_STRTAB,
10 is DT_STRSZ, anything else is irrelevant. -/
def DynSectionTag.fromVal (value : Nat) : DynSectionTag :=
  if value = 0x01 then DynSectionTag.DtNeeded
  else if value = 0x05 then DynSectionTag.DtStrTab
  else if value = 0xa then DynSectionTag.DtStrSz
  else DynSectionTag.Irrelevant

/-- `Elf64SHeaderMeta`: program-header table offset, entry size, entry count. -/
structure Elf64SHeaderMeta where
  e_phoff : Nat
  e_phentsize : Nat
  e_phnum : Nat
deriving DecidableEq

/-- `ElfProgramSection`: decoded program header entry (the three fields kept). -/
structure ElfProgramSection where
  p_type : ElfSegmentType
  p_offset : Nat
  p_filesz : Nat
deriving DecidableEq

/-- `DynSectionElement`: one 16-byte dynamic-section element. -/
structure DynSectionElement where
  d_tag : DynSectionTag
  d_thing : Nat
deriving DecidableEq

/-- `DynamicSectionCriticals`: what `read_dynamic_section` returns. -/
structure DynamicSectionCriticals where
  dt_needed : List DynSectionElement
  dt_strtab : DynSectionElement
  dt_strsz : Nat
deriving DecidableEq

/-! ## The Elf64 functions (src/imp/elf64.rs) -/

/-- `Elf64::extract_section_header_meta`.  Reads `e_phoff` from bytes
0x20..0x28, `e_phentsize` from 0x36..0x38, `e_phnum` from 0x38..0x3a,
all little-endian; returns `some none` when `e_phoff` is zero.  The outer
`Option` is the panic layer (`try_into().unwrap()` on a short buffer). -/
def extract_section_header_meta (buffer : List Nat) : Option (Option Elf64SHeaderMeta) :=
  match sliceRange buffer 0x20 0x28, sliceRange buffer 0x36 0x38,
        sliceRange buffer 0x38 0x3a with
  | some phoffB, some phentB, some phnumB =>
    let e_phoff := leVal phoffB
    let e_phentsize := leVal phentB
    let e_phnum := leVal phnumB
    if e_phoff = 0 then some none
    else some (some { e_phoff := e_phoff, e_phentsize := e_phentsize, e_phnum := e_phnum })
  | _, _, _ => none

/-- Decoding of one program-header chunk inside
`Elf64::extract_program_section_meta`: `p_type` from chunk bytes 0..4,
`p_offset` from 0x08..0x10, `p_filesz` from 0x20..0x28 (panic when the
chunk is too short for any slice). -/
def decodeProgramSectionChunk (ch : List Nat) : Option ElfProgramSection :=
  match sliceRange ch 0x0 0x04, sliceRange ch 0x08 0x10, sliceRange ch 0x20 0x28 with
  | some tBytes, some offBytes, some szBytes =>
    some { p_type := ElfSegmentType.fromVal (leVal tBytes),
           p_offset := leVal offBytes,
           p_filesz := leVal szBytes }
  | _, _, _ => none

/-- `Elf64::extract_program_section_meta`.  Slices the program-header table
range, splits it into chunks of `e_phentsize` bytes, decodes each, keeps
the entries whose type is `PtDynamic` and returns the first one (`get(0)`),
`some none` when there is none.  The outer `Option` is the panic layer:
out-of-range slicing, `chunks(0)`, or a chunk too short for the field reads. -/
def extract_program_section_meta (buffer : List Nat) (h_meta : Elf64SHeaderMeta) :
    Option (Option ElfProgramSection) :=
  let section_offset := h_meta.e_phoff
  let section_size := h_meta.e_phentsize
  let section_amount := h_meta.e_phnum
  match sliceRange buffer section_offset (section_offset + section_size * section_amount) with
  | none => none
  | some program_sections =>
    -- Rust `chunks(0)` panics, so a zero entry size is a panic before any decode
    if section_size = 0 then none
    else
      match mapOpt decodeProgramSectionChunk (chunks section_size program_sections) with
      | none => none
      | some secs =>
        some ((secs.filter (fun sec => decide (sec.p_type = ElfSegmentType.PtDynamic))).head?)

/-- Decoding of one 16-byte dynamic-section chunk inside
`Elf64::read_dynamic_section`: the tag from bytes 0..8 little-endian, the
payload from bytes 8.. (which `try_into` forces to be exactly 8 bytes). -/
def decodeDynChunk (x : List Nat) : Option DynSectionElement :=
  match sliceRange x 0x0 0x08 with
  | none => none
  | some tagBytes =>
    -- `x[0x08..].try_into()` succeeds only when exactly 8 bytes remain
    if x.length = 16 then
      some { d_tag := DynSectionTag.fromVal (leVal tagBytes), d_thing := leVal (x.drop 0x08) }
    else none

/-- The element pass of `Elf64::read_dynamic_section`: slice the dynamic
segment's byte range and decode it in 16-byte chunks. -/
def dynElements (buffer : List Nat) (offset size : Nat) : Option (List DynSectionElement) :=
  match sliceRange buffer offset (offset + size) with
  | none => none
  | some complete_section => mapOpt decodeDynChunk (chunks 16 complete_section)

/-- `Elf64::read_dynamic_section`.  Decodes the elements, then looks up the
string-table entry; NOTE: in the source the `str_sz` lookup searches for
`DtStrTab` a second time (not `DtStrSz`), so `dt_strsz` is the payload of the
first `DtStrTab` element.  The `expect` calls are the panic layer (`none`). -/
def read_dynamic_section (buffer : List Nat) (dyn_meta : ElfProgramSection) :
    Option DynamicSectionCriticals :=
  match dynElements buffer dyn_meta.p_offset dyn_meta.p_filesz with
  | none => none
  | some elements =>
    match elements.find? (fun x => decide (x.d_tag = DynSectionTag.DtStrTab)) with
    | none => none
    | some str_table =>
      match elements.find? (fun x => decide (x.d_tag = DynSectionTag.DtStrTab)) with
      | none => none
      | some str_sz =>
        some { dt_needed := elements.filter (fun x => decide (x.d_tag = DynSectionTag.DtNeeded)),
               dt_strtab := str_table,
               dt_strsz := str_sz.d_thing }

/-- One loop iteration of `Elf64::extract_library_names`: seek the cursor to
`idx` inside the string table, `read_until 0` (the zero byte, when found, is
included in the collected bytes), then `String::from_utf8(..).unwrap()`
(panic on invalid UTF-8, modelled by `none`). -/
def resolveName (string_table : List Nat) (idx : Nat) : Option (List Nat) :=
  let library_name := readUntilNul (string_table.drop idx)
  if utf8Valid library_name then some library_name else none

/-- `Elf64::extract_library_names`.  Slices the string-table range
(panicking when out of range) and resolves one name per `dt_needed` entry,
in order. -/
def extract_library_names (buffer : List Nat) (criticals : DynamicSectionCriticals) :
    Option (List (List Nat)) :=
  let str_table_offset := criticals.dt_strtab.d_thing
  let str_table_size := criticals.dt_strsz
  match sliceRange buffer str_table_offset (str_table_offset + str_table_size) with
  | none => none
  | some string_table =>
    mapOpt (fun needed => resolveName string_table needed.d_thing) criticals.dt_needed

/-! ## The main entry point (src/main.rs) -/

/-- The ELF magic bytes checked by `main`. -/
def MAGIC_IDENT : List Nat := [0x7f, 0x45, 0x4c, 0x46]

/-- The observable progress of `main` after the file has been read:
whether the magic-mismatch branch ran (it only prints two error lines), and
the byte slices taken by the two following stages (the file-header read
`&buf[0..52]` and the program-header scan `&buf[64..12*56]`).  The source
continues with unchecked pointer reinterpretation and printing, which the
claims do not need. -/
structure MainProgress where
  printed_not_elf : Bool
  header_bytes : List Nat
  pheader_bytes : List Nat
deriving DecidableEq

/-- The straight-line control flow of `main` after reading the file: the
magic comparison guards only the two `eprintln` calls — there is no early
return — so the header read and the program-header scan run unconditionally
afterwards.  `none` is the panic layer (a slice out of range). -/
def main_after_read (buf : List Nat) : Option MainProgress :=
  match sliceRange buf 0 4 with
  | none => none
  | some magic =>
    let bad := decide (magic ≠ MAGIC_IDENT)
    match sliceRange buf 0 52 with
    | none => none
    | some elf_identifiers =>
      match sliceRange buf 64 (12 * 56) with
      | none => none
      | some section_header =>
        some { printed_not_elf := bad,
               header_bytes := elf_identifiers,
               pheader_bytes := section_header }

/-! ## Helper lemmas -/

theorem sliceRange_of_le (l : List Nat) (a b : Nat) (h1 : a ≤ b) (h2 : b ≤ l.length) :
    sliceRange l a b = some ((l.drop a).take (b - a)) := by
  unfold sliceRange
  rw [if_pos ⟨h1, h2⟩]

theorem sliceRange_none_of_gt (l : List Nat) (a b : Nat) (h : l.length < b) :
    sliceRange l a b = none := by
  unfold sliceRange
  rw [if_neg]
  intro hc
  omega

theorem sliceRange_eq_some (l : List Nat) (a b : Nat) (s : List Nat)
    (h : sliceRange l a b = some s) :
    a ≤ b ∧ b ≤ l.length ∧ s = (l.drop a).take (b - a) := by
  unfold sliceRange at h
  by_cases hc : a ≤ b ∧ b ≤ l.length
  · rw [if_pos hc] at h
    exact ⟨hc.1, hc.2, (Option.some_inj.mp h).symm⟩
  · rw [if_neg hc] at h
    exact absurd h (by simp)

theorem seg_drop_take (buffer : List Nat) (off size k m : Nat) (h : k + m ≤ size) :
    (((buffer.drop off).take size).drop k).take m = (buffer.drop (off + k)).take m := by
  rw [List.drop_take, List.take_take, min_eq_left (by omega), List.drop_drop]

theorem take_take_of_le (l : List Nat) (m n : Nat) (h : m ≤ n) :
    (l.take n).take m = l.take m := by
  rw [List.take_take, min_eq_left h]

theorem chunksF_fuel {α : Type} (n : Nat) (hn : 0 < n) :
    ∀ (f1 f2 : Nat) (l : List α), l.length ≤ f1 → l.length ≤ f2 →
      chunksF f1 n l = chunksF f2 n l := by
  intro f1
  induction f1 with
  | zero =>
    intro f2 l h1 _
    match l with
    | [] => cases f2 <;> rfl
    | a :: l => simp at h1
  | succ f ih =>
    intro f2 l h1 h2
    match l, f2 with
    | [], f2 => cases f2 <;> rfl
    | a :: l, 0 => simp at h2
    | a :: l, g + 1 =>
      show (a :: l).take n :: chunksF f n ((a :: l).drop n)
          = (a :: l).take n :: chunksF g n ((a :: l).drop n)
      congr 1
      apply ih
      · rw [List.length_drop]
        simp only [List.length_cons] at h1 ⊢
        omega
      · rw [List.length_drop]
        simp only [List.length_cons] at h2 ⊢
        omega

theorem chunks_nil {α : Type} (n : Nat) : chunks n ([] : List α) = [] := rfl

theorem chunks_cons {α : Type} (n : Nat) (hn : 0 < n) (a : α) (l : List α) :
    chunks n (a :: l) = (a :: l).take n :: chunks n ((a :: l).drop n) := by
  show chunksF ((a :: l).length) n (a :: l) = _
  have he : chunksF ((a :: l).length) n (a :: l)
      = (a :: l).take n :: chunksF l.length n ((a :: l).drop n) := by
    rfl
  rw [he]
  congr 1
  apply chunksF_fuel n hn
  · rw [List.length_drop]
    simp only [List.length_cons]
    omega
  · exact Nat.le_refl _

theorem chunks_getElem? {α : Type} (n : Nat) (hn : 0 < n) :
    ∀ (i : Nat) (l : List α),
      (chunks n l)[i]? =
        if l.length ≤ n * i then none else some ((l.drop (n * i)).take n) := by
  intro i
  induction i with
  | zero =>
    intro l
    match l with
    | [] => simp [chunks_nil]
    | a :: l =>
      rw [chunks_cons n hn]
      rw [if_neg (by simp)]
      rw [List.getElem?_cons_zero, Nat.mul_zero, List.drop_zero]
  | succ i ih =>
    intro l
    match l with
    | [] => simp [chunks_nil]
    | a :: l =>
      rw [chunks_cons n hn, List.getElem?_cons_succ, ih ((a :: l).drop n)]
      rw [List.length_drop, List.drop_drop, Nat.mul_succ]
      by_cases hc : (a :: l).length ≤ n * i + n
      · rw [if_pos (by omega), if_pos (by omega)]
      · rw [if_neg (by omega), if_neg (by omega)]
        rw [Nat.add_comm n (n * i)]

theorem chunks_length_of_dvd {α : Type} (n : Nat) (hn : 0 < n) :
    ∀ (f : Nat) (l : List α), l.length ≤ f → n ∣ l.length →
      (chunksF f n l).length = l.length / n := by
  intro f
  induction f with
  | zero =>
    intro l h1 _
    match l with
    | [] => simp [chunksF]
    | a :: l => simp at h1
  | succ f ih =>
    intro l h1 h2
    match l with
    | [] => simp [chunksF]
    | a :: l =>
      have hge : n ≤ (a :: l).length := Nat.le_of_dvd (by simp) h2
      have hd : ((a :: l).drop n).length = (a :: l).length - n := List.length_drop ..
      have hrec := ih ((a :: l).drop n)
        (by rw [hd]; simp only [List.length_cons] at h1 ⊢; omega)
        (by rw [hd]; exact Nat.dvd_sub' h2 dvd_rfl)
      show (chunksF f n ((a :: l).drop n)).length + 1 = (a :: l).length / n
      rw [hrec, hd]
      obtain ⟨k, hk⟩ := h2
      have hk1 : 1 ≤ k := by
        rcases Nat.eq_zero_or_pos k with h0 | h0
        · rw [h0, Nat.mul_zero] at hk
          simp at hk
        · exact h0
      rw [hk]
      have hsub : n * k - n = n * (k - 1) := by
        cases k with
        | zero => simp
        | succ k =>
          rw [Nat.mul_succ, Nat.succ_sub_one]
          omega
      rw [hsub, Nat.mul_div_cancel_left _ hn, Nat.mul_div_cancel_left _ hn]
      omega

theorem chunks_mem_length {α : Type} (n : Nat) (hn : 0 < n) :
    ∀ (f : Nat) (l : List α) (c : List α), l.length ≤ f → n ∣ l.length →
      c ∈ chunksF f n l → c.length = n := by
  intro f
  induction f with
  | zero =>
    intro l c h1 _ hm
    match l with
    | [] => simp [chunksF] at hm
    | a :: l => simp at h1
  | succ f ih =>
    intro l c h1 h2 hm
    match l with
    | [] => simp [chunksF] at hm
    | a :: l =>
      have hge : n ≤ (a :: l).length := Nat.le_of_dvd (by simp) h2
      have hd : ((a :: l).drop n).length = (a :: l).length - n := List.length_drop ..
      rcases (List.mem_cons).mp hm with he | ht
      · rw [he]
        exact List.length_take_of_le hge
      · exact ih ((a :: l).drop n) c
          (by rw [hd]; simp only [List.length_cons] at h1 ⊢; omega)
          (by rw [hd]; exact Nat.dvd_sub' h2 dvd_rfl) ht

theorem chunks_exists_ne {α : Type} (n : Nat) (hn : 0 < n) :
    ∀ (f : Nat) (l : List α), l.length ≤ f → ¬ n ∣ l.length →
      ∃ c, c ∈ chunksF f n l ∧ c.length ≠ n := by
  intro f
  induction f with
  | zero =>
    intro l h1 h2
    match l with
    | [] => exact absurd (Dvd.intro 0 rfl) h2
    | a :: l => simp at h1
  | succ f ih =>
    intro l h1 h2
    match l with
    | [] => exact absurd (Dvd.intro 0 rfl) h2
    | a :: l =>
      by_cases hge : n ≤ (a :: l).length
      · have hd : ((a :: l).drop n).length = (a :: l).length - n := List.length_drop ..
        have hnd : ¬ n ∣ ((a :: l).drop n).length := by
          rw [hd]
          intro hdvd
          apply h2
          have := Nat.dvd_add hdvd (dvd_refl n)
          rwa [Nat.sub_add_cancel hge] at this
        obtain ⟨c, hc, hcne⟩ := ih ((a :: l).drop n)
          (by rw [hd]; simp only [List.length_cons] at h1 ⊢; omega) hnd
        exact ⟨c, List.mem_cons_of_mem _ hc, hcne⟩
      · refine ⟨(a :: l).take n, List.mem_cons_self _ _, ?_⟩
        rw [List.take_of_length_le (by omega)]
        omega

theorem mapOpt_eq_some {α β : Type} (f : α → Option β) :
    ∀ (l : List α) (r : List β), mapOpt f l = some r →
      r.length = l.length ∧ ∀ (i : Nat) (a : α), l[i]? = some a → r[i]? = f a := by
  intro l
  induction l with
  | nil =>
    intro r h
    simp only [mapOpt, Option.some_inj] at h
    subst h
    exact ⟨rfl, by intro i a h; simp at h⟩
  | cons a l ih =>
    intro r h
    cases hfa : f a with
    | none => rw [mapOpt, hfa] at h; exact absurd h (by simp)
    | some b =>
      cases hml : mapOpt f l with
      | none => rw [mapOpt, hfa, hml] at h; exact absurd h (by simp)
      | some bs =>
        rw [mapOpt, hfa, hml] at h
        simp only [Option.some_inj] at h
        subst h
        obtain ⟨hlen, hpt⟩ := ih bs hml
        refine ⟨by simp [hlen], ?_⟩
        intro i x hx
        cases i with
        | zero =>
          rw [List.getElem?_cons_zero, Option.some_inj] at hx
          subst hx
          rw [List.getElem?_cons_zero, hfa]
        | succ i =>
          rw [List.getElem?_cons_succ] at hx
          rw [List.getElem?_cons_succ]
          exact hpt i x hx

theorem mapOpt_forall_some {α β : Type} (f : α → Option β) :
    ∀ l : List α, (∀ a ∈ l, (f a).isSome) → ∃ r, mapOpt f l = some r := by
  intro l
  induction l with
  | nil => exact fun _ => ⟨[], rfl⟩
  | cons a l ih =>
    intro h
    obtain ⟨b, hb⟩ := Option.isSome_iff_exists.mp (h a (List.mem_cons_self _ _))
    obtain ⟨bs, hbs⟩ := ih (fun x hx => h x (List.mem_cons_of_mem _ hx))
    exact ⟨b :: bs, by rw [mapOpt, hb, hbs]⟩

theorem mapOpt_eq_none_of_mem {α β : Type} (f : α → Option β) :
    ∀ (l : List α) (a : α), a ∈ l → f a = none → mapOpt f l = none := by
  intro l
  induction l with
  | nil => intro a ha; simp at ha
  | cons x l ih =>
    intro a ha hfa
    rcases List.mem_cons.mp ha with he | ht
    · subst he
      rw [mapOpt, hfa]
    · rw [mapOpt, ih a ht hfa]
      cases f x <;> rfl

theorem head?_filter_eq_find? {α : Type} (p : α → Bool) :
    ∀ l : List α, (l.filter p).head? = l.find? p := by
  intro l
  induction l with
  | nil => rfl
  | cons a l ih =>
    cases hpa : p a with
    | true => rw [List.filter_cons, if_pos (by rw [hpa]), List.head?_cons, List.find?_cons, hpa]
    | false => rw [List.filter_cons, if_neg (by rw [hpa]; simp), List.find?_cons, hpa, ih]

theorem find?_eq_some_of_first {α : Type} (p : α → Bool) :
    ∀ (l : List α) (i : Nat) (a : α), l[i]? = some a → p a = true →
      (∀ (j : Nat) (b : α), j < i → l[j]? = some b → p b = false) →
      l.find? p = some a := by
  intro l
  induction l with
  | nil => intro i a h; simp at h
  | cons x l ih =>
    intro i a h hpa hprev
    cases i with
    | zero =>
      rw [List.getElem?_cons_zero, Option.some_inj] at h
      subst h
      rw [List.find?_cons, hpa]
    | succ i =>
      have hx : p x = false := hprev 0 x (Nat.succ_pos i) List.getElem?_cons_zero
      rw [List.find?_cons, hx]
      rw [List.getElem?_cons_succ] at h
      exact ih i a h hpa
        (fun j b hj hb => hprev (j + 1) b (by omega) (by rwa [List.getElem?_cons_succ]))

theorem readUntilNul_of_no_zero :
    ∀ l : List Nat, (∀ b ∈ l, b ≠ 0) → readUntilNul l = l := by
  intro l
  induction l with
  | nil => intro _; rfl
  | cons b l ih =>
    intro h
    rw [readUntilNul, if_neg (h b (List.mem_cons_self _ _))]
    rw [ih (fun x hx => h x (List.mem_cons_of_mem _ hx))]

theorem decodeDynChunk_of_len16 (x : List Nat) (h : x.length = 16) :
    decodeDynChunk x = some
      { d_tag := DynSectionTag.fromVal (leVal (x.take 8)), d_thing := leVal (x.drop 8) } := by
  unfold decodeDynChunk
  rw [sliceRange_of_le x 0x0 0x08 (by omega) (by omega)]
  show (if x.length = 16
      then some ({ d_tag := DynSectionTag.fromVal (leVal ((x.drop 0).take (8 - 0))),
                   d_thing := leVal (x.drop 8) } : DynSectionElement)
      else none)
    = some ({ d_tag := DynSectionTag.fromVal (leVal (x.take 8)),
              d_thing := leVal (x.drop 8) } : DynSectionElement)
  rw [if_pos h]
  rfl

theorem decodeDynChunk_of_len_ne (x : List Nat) (h : x.length ≠ 16) :
    decodeDynChunk x = none := by
  unfold decodeDynChunk
  by_cases h8 : 0x08 ≤ x.length
  · rw [sliceRange_of_le x 0x0 0x08 (by omega) h8]
    show (if x.length = 16
        then some ({ d_tag := DynSectionTag.fromVal (leVal ((x.drop 0).take (8 - 0))),
                     d_thing := leVal (x.drop 8) } : DynSectionElement)
        else none) = (none : Option DynSectionElement)
    rw [if_neg h]
  · rw [sliceRange_none_of_gt x 0x0 0x08 (by omega)]

theorem decodeProgramSectionChunk_of_le (ch : List Nat) (h : 0x28 ≤ ch.length) :
    decodeProgramSectionChunk ch = some
      { p_type := ElfSegmentType.fromVal (leVal (ch.take 4)),
        p_offset := leVal ((ch.drop 8).take 8),
        p_filesz := leVal ((ch.drop 0x20).take 8) } := by
  unfold decodeProgramSectionChunk
  rw [sliceRange_of_le ch 0x0 0x04 (by omega) (by omega),
      sliceRange_of_le ch 0x08 0x10 (by omega) (by omega),
      sliceRange_of_le ch 0x20 0x28 (by omega) (by omega)]
  rw [List.drop_zero]

/-! ## Claims -/

/-- Claim C1 (evidence of the code bug): in a dynamic section whose first
StringTableOffset (tag 5) element has payload 0x64 and whose first
StringTableSize (tag 10) element has payload 7, the decoder returns
`dt_strsz = 0x64` — the payload of the tag-5 element, not of the tag-10
element, because the source looks up `DtStrTab` a second time for the size. -/
theorem claim_C1_eval :
    dynElements [5, 0, 0, 0, 0, 0, 0, 0, 0x64, 0, 0, 0, 0, 0, 0, 0,
                 10, 0, 0, 0, 0, 0, 0, 0, 7, 0, 0, 0, 0, 0, 0, 0] 0 32 =
      some [{ d_tag := DynSectionTag.DtStrTab, d_thing := 0x64 },
            { d_tag := DynSectionTag.DtStrSz, d_thing := 7 }] ∧
    read_dynamic_section
        [5, 0, 0, 0, 0, 0, 0, 0, 0x64, 0, 0, 0, 0, 0, 0, 0,
         10, 0, 0, 0, 0, 0, 0, 0, 7, 0, 0, 0, 0, 0, 0, 0]
        { p_type := ElfSegmentType.PtDynamic, p_offset := 0, p_filesz := 32 } =
      some { dt_needed := [],
             dt_strtab := { d_tag := DynSectionTag.DtStrTab, d_thing := 0x64 },
             dt_strsz := 0x64 } :=
  ⟨by decide, by decide⟩

/-- Claim C2 (counterexample to the claim as stated): when a computed range
exceeds the buffer, the stages do not return an error value — they panic
(modelled by `none`, the panic layer; the code has no `OutOfBounds` or
`TruncatedHeader` error channel at all).  Here the program-header range
100..156 and the string-table range 60..70 both exceed a 64-byte buffer. -/
theorem claim_C2_counterexample :
    extract_program_section_meta (List.replicate 64 0)
      { e_phoff := 100, e_phentsize := 56, e_phnum := 1 } = none ∧
    extract_library_names (List.replicate 64 0)
      { dt_needed := [],
        dt_strtab := { d_tag := DynSectionTag.DtStrTab, d_thing := 60 },
        dt_strsz := 10 } = none :=
  ⟨by decide, by decide⟩

/-- Claim C2 (amended): no stage checks its computed byte range against the
buffer length; whenever the fixed header reads, the program-header-table
range, the dynamic-segment range, or the string-table range exceeds the
buffer, the stage panics (the `none` of the panic layer) instead of
returning an error. -/
theorem claim_C2 :
    (∀ buffer : List Nat, buffer.length < 0x3a →
        extract_section_header_meta buffer = none) ∧
    (∀ (buffer : List Nat) (h_meta : Elf64SHeaderMeta),
        buffer.length < h_meta.e_phoff + h_meta.e_phentsize * h_meta.e_phnum →
        extract_program_section_meta buffer h_meta = none) ∧
    (∀ (buffer : List Nat) (dyn_meta : ElfProgramSection),
        buffer.length < dyn_meta.p_offset + dyn_meta.p_filesz →
        read_dynamic_section buffer dyn_meta = none) ∧
    (∀ (buffer : List Nat) (criticals : DynamicSectionCriticals),
        buffer.length < criticals.dt_strtab.d_thing + criticals.dt_strsz →
        extract_library_names buffer criticals = none) := by
  refine ⟨?_, ?_, ?_, ?_⟩
  · intro buffer h
    unfold extract_section_header_meta
    rw [sliceRange_none_of_gt buffer 0x38 0x3a (by omega)]
    cases sliceRange buffer 0x20 0x28 <;> cases sliceRange buffer 0x36 0x38 <;> rfl
  · intro buffer h_meta h
    unfold extract_program_section_meta
    simp only [sliceRange_none_of_gt buffer _ _ h]
  · intro buffer dyn_meta h
    unfold read_dynamic_section dynElements
    rw [sliceRange_none_of_gt buffer _ _ h]
  · intro buffer criticals h
    unfold extract_library_names
    simp only [sliceRange_none_of_gt buffer _ _ h]

/-- Claim C2 witness: the amended theorem applied at concrete inputs. -/
theorem claim_C2_witness :
    extract_section_header_meta (List.replicate 4 0) = none ∧
    extract_program_section_meta (List.replicate 64 0)
      { e_phoff := 100, e_phentsize := 56, e_phnum := 1 } = none ∧
    read_dynamic_section (List.replicate 8 0)
      { p_type := ElfSegmentType.PtDynamic, p_offset := 0, p_filesz := 16 } = none ∧
    extract_library_names (List.replicate 4 0)
      { dt_needed := [],
        dt_strtab := { d_tag := DynSectionTag.DtStrTab, d_thing := 0 },
        dt_strsz := 8 } = none :=
  ⟨claim_C2.1 _ (by decide), claim_C2.2.1 _ _ (by decide),
   claim_C2.2.2.1 _ _ (by decide), claim_C2.2.2.2 _ _ (by decide)⟩

/-- Claim C3 (evidence of the code bug): resolving a Needed entry whose
payload indexes the null-terminated name bytes 0x6c 0x69 0x62 0x00 in the
string table returns all four bytes — the terminating null byte IS part of
the returned name, because `read_until` includes its delimiter. -/
theorem claim_C3_eval :
    extract_library_names [0x6c, 0x69, 0x62, 0x00]
      { dt_needed := [{ d_tag := DynSectionTag.DtNeeded, d_thing := 0 }],
        dt_strtab := { d_tag := DynSectionTag.DtStrTab, d_thing := 0 },
        dt_strsz := 4 } = some [[0x6c, 0x69, 0x62, 0x00]] := by
  decide

/-- Claim C4 (evidence of the code bug): on a 672-byte buffer whose first
four bytes are not the ELF magic, `main` takes the magic-mismatch branch
(which only prints) and still executes the subsequent stages — the result
carries `printed_not_elf = true` together with the header bytes and the
program-header bytes read by the following stages, so the pipeline was not
stopped. -/
theorem claim_C4_eval :
    main_after_read (List.replicate 672 0) =
      some { printed_not_elf := true,
             header_bytes := List.replicate 52 0,
             pheader_bytes := List.replicate 608 0 } := by
  set_option maxRecDepth 20000 in decide

/-- Claim C5: when the string-table slice succeeds, the resolver yields
exactly one name per `Needed` entry — the result has the same length as
`dt_needed` and its i-th element is the resolution of the i-th `Needed`
entry (order preserved, no duplication, no reordering) — and an empty
`dt_needed` yields the empty result rather than an error. -/
theorem claim_C5 (buffer : List Nat) (criticals : DynamicSectionCriticals) (table : List Nat)
    (ht : sliceRange buffer criticals.dt_strtab.d_thing
            (criticals.dt_strtab.d_thing + criticals.dt_strsz) = some table) :
    (∀ rs, extract_library_names buffer criticals = some rs →
        rs.length = criticals.dt_needed.length ∧
        ∀ (i : Nat) (n : DynSectionElement), criticals.dt_needed[i]? = some n →
          rs[i]? = resolveName table n.d_thing) ∧
    (criticals.dt_needed = [] → extract_library_names buffer criticals = some []) := by
  have he : extract_library_names buffer criticals
      = mapOpt (fun needed => resolveName table needed.d_thing) criticals.dt_needed := by
    unfold extract_library_names
    simp only [ht]
  constructor
  · intro rs hrs
    rw [he] at hrs
    exact mapOpt_eq_some _ _ rs hrs
  · intro hz
    rw [he, hz]
    rfl

/-- Claim C5 witness: a dynamic section with zero Needed entries yields the
empty sequence. -/
theorem claim_C5_witness :
    extract_library_names [0x61, 0x00]
      { dt_needed := [],
        dt_strtab := { d_tag := DynSectionTag.DtStrTab, d_thing := 0 },
        dt_strsz := 2 } = some [] :=
  (claim_C5 _ _ [0x61, 0x00] (by decide)).2 rfl

/-- Claim C7 (counterexample to the claim as stated): a Needed entry whose
name bytes reach the end of the string table without a null terminator does
NOT fail — the resolver returns the remaining bytes (a truncated name), so
the result is `some`, not an error. -/
theorem claim_C7_counterexample :
    extract_library_names [0x61, 0x62, 0x63, 0x64]
      { dt_needed := [{ d_tag := DynSectionTag.DtNeeded, d_thing := 1 }],
        dt_strtab := { d_tag := DynSectionTag.DtStrTab, d_thing := 0 },
        dt_strsz := 4 } = some [[0x62, 0x63, 0x64]] := by
  decide

/-- Claim C7 (amended): when a Needed entry's name bytes reach the end of
the string table without a null terminator, the resolver does not fail with
an out-of-bounds error: it takes the remaining bytes from the entry's index
up to the table's end as the name bytes; whenever the resolution produces a
result at all, that entry's name is exactly those remaining bytes, and this
happens precisely when they are valid UTF-8 — otherwise the UTF-8 decode
panics (the `unwrap` on `String::from_utf8`), which also makes the whole
resolution panic. -/
theorem claim_C7 (buffer : List Nat) (criticals : DynamicSectionCriticals)
    (table : List Nat) (i : Nat) (n : DynSectionElement)
    (ht : sliceRange buffer criticals.dt_strtab.d_thing
            (criticals.dt_strtab.d_thing + criticals.dt_strsz) = some table)
    (hn : criticals.dt_needed[i]? = some n)
    (hz : ∀ b ∈ table.drop n.d_thing, b ≠ 0) :
    (∀ rs, extract_library_names buffer criticals = some rs →
        rs[i]? = some (table.drop n.d_thing)) ∧
    (utf8Valid (table.drop n.d_thing) = true →
        resolveName table n.d_thing = some (table.drop n.d_thing)) ∧
    (utf8Valid (table.drop n.d_thing) = false →
        resolveName table n.d_thing = none ∧
        extract_library_names buffer criticals = none) := by
  have he : extract_library_names buffer criticals
      = mapOpt (fun needed => resolveName table needed.d_thing) criticals.dt_needed := by
    unfold extract_library_names
    simp only [ht]
  have hru : readUntilNul (table.drop n.d_thing) = table.drop n.d_thing :=
    readUntilNul_of_no_zero _ hz
  have hres : resolveName table n.d_thing
      = (if utf8Valid (table.drop n.d_thing) = true
         then some (table.drop n.d_thing) else none) := by
    simp only [resolveName, hru]
  refine ⟨?_, ?_, ?_⟩
  · intro rs hrs
    rw [he] at hrs
    obtain ⟨hlen, hpt⟩ := mapOpt_eq_some _ _ rs hrs
    have h1 : rs[i]? = resolveName table n.d_thing := hpt i n hn
    rw [hres] at h1
    cases hv : utf8Valid (table.drop n.d_thing) with
    | true =>
      rw [if_pos hv] at h1
      exact h1
    | false =>
      rw [if_neg (by simp [hv])] at h1
      exfalso
      have hi : i < criticals.dt_needed.length := by
        rcases List.getElem?_eq_some.mp hn with ⟨hlt, _⟩
        exact hlt
      have hi2 : i < rs.length := by omega
      rw [List.getElem?_eq_getElem hi2] at h1
      exact absurd h1 (by simp)
  · intro hv
    rw [hres, if_pos hv]
  · intro hv
    have hnone : resolveName table n.d_thing = none := by
      rw [hres, if_neg (by simp [hv])]
    refine ⟨hnone, ?_⟩
    rw [he]
    exact mapOpt_eq_none_of_mem _ criticals.dt_needed n
      (List.mem_iff_getElem?.mpr ⟨i, hn⟩) hnone

/-- Claim C7 witness: the amended theorem applied twice — once to a table
whose unterminated tail is valid UTF-8 (the tail becomes the name) and once
to a table whose unterminated tail is the invalid byte 0xFF (the UTF-8
decode panics, so the whole resolution panics; neither case raises an
out-of-bounds error). -/
theorem claim_C7_witness :
    (extract_library_names [0x61, 0x62]
      { dt_needed := [{ d_tag := DynSectionTag.DtNeeded, d_thing := 0 }],
        dt_strtab := { d_tag := DynSectionTag.DtStrTab, d_thing := 0 },
        dt_strsz := 2 } = some [[0x61, 0x62]] ∧
      ([[0x61, 0x62]] : List (List Nat))[0]? = some [0x61, 0x62] ∧
      resolveName [0x61, 0x62] 0 = some [0x61, 0x62]) ∧
    (resolveName [0x61, 0xFF] 1 = none ∧
      extract_library_names [0x61, 0xFF]
        { dt_needed := [{ d_tag := DynSectionTag.DtNeeded, d_thing := 1 }],
          dt_strtab := { d_tag := DynSectionTag.DtStrTab, d_thing := 0 },
          dt_strsz := 2 } = none) :=
  ⟨⟨by decide,
    (claim_C7 [0x61, 0x62]
      { dt_needed := [{ d_tag := DynSectionTag.DtNeeded, d_thing := 0 }],
        dt_strtab := { d_tag := DynSectionTag.DtStrTab, d_thing := 0 },
        dt_strsz := 2 }
      [0x61, 0x62] 0 { d_tag := DynSectionTag.DtNeeded, d_thing := 0 }
      (by decide) (by decide) (by decide)).1 [[0x61, 0x62]] (by decide),
    (claim_C7 [0x61, 0x62]
      { dt_needed := [{ d_tag := DynSectionTag.DtNeeded, d_thing := 0 }],
        dt_strtab := { d_tag := DynSectionTag.DtStrTab, d_thing := 0 },
        dt_strsz := 2 }
      [0x61, 0x62] 0 { d_tag := DynSectionTag.DtNeeded, d_thing := 0 }
      (by decide) (by decide) (by decide)).2.1 (by decide)⟩,
   (claim_C7 [0x61, 0xFF]
      { dt_needed := [{ d_tag := DynSectionTag.DtNeeded, d_thing := 1 }],
        dt_strtab := { d_tag := DynSectionTag.DtStrTab, d_thing := 0 },
        dt_strsz := 2 }
      [0x61, 0xFF] 0 { d_tag := DynSectionTag.DtNeeded, d_thing := 1 }
      (by decide) (by decide) (by decide)).2.2 (by decide)⟩

/-- Claim C8: on a buffer long enough for the fixed header reads, the
locator returns `some none` (no error) exactly when the 8 little-endian
bytes at offset 0x20 (the program-header-table offset field) decode to
zero; otherwise it returns that offset together with the entry size decoded
from the 2 bytes at 0x36 and the entry count from the 2 bytes at 0x38. -/
theorem claim_C8 (buffer : List Nat) (h : 0x3a ≤ buffer.length) :
    (leVal ((buffer.drop 0x20).take 8) = 0 →
        extract_section_header_meta buffer = some none) ∧
    (leVal ((buffer.drop 0x20).take 8) ≠ 0 →
        extract_section_header_meta buffer = some (some
          { e_phoff := leVal ((buffer.drop 0x20).take 8),
            e_phentsize := leVal ((buffer.drop 0x36).take 2),
            e_phnum := leVal ((buffer.drop 0x38).take 2) })) := by
  have h1 := sliceRange_of_le buffer 0x20 0x28 (by omega) (by omega)
  have h2 := sliceRange_of_le buffer 0x36 0x38 (by omega) (by omega)
  have h3 := sliceRange_of_le buffer 0x38 0x3a (by omega) (by omega)
  have he : extract_section_header_meta buffer
      = (if leVal ((buffer.drop 0x20).take 8) = 0 then some none
         else some (some { e_phoff := leVal ((buffer.drop 0x20).take 8),
                           e_phentsize := leVal ((buffer.drop 0x36).take 2),
                           e_phnum := leVal ((buffer.drop 0x38).take 2) })) := by
    unfold extract_section_header_meta
    rw [h1, h2, h3]
  constructor
  · intro h0
    rw [he, if_pos h0]
  · intro h0
    rw [he, if_neg h0]

/-- Claim C8 witness: a 0x3a-byte buffer whose offset field decodes to 1. -/
theorem claim_C8_witness :
    extract_section_header_meta (List.replicate 0x20 0 ++ 1 :: List.replicate 0x19 0)
      = some (some { e_phoff := 1, e_phentsize := 0, e_phnum := 0 }) :=
  ((claim_C8 _ (by decide)).2 (by decide)).trans (by decide)

/-- Claim C10: for every in-bounds dynamic segment whose file size is not a
multiple of 16, the final partial chunk is shorter than 16 bytes, the
fixed-width field extraction from it panics, and `read_dynamic_section`
therefore panics (`none`) instead of returning a value. -/
theorem claim_C10 (buffer : List Nat) (dyn_meta : ElfProgramSection)
    (hb : dyn_meta.p_offset + dyn_meta.p_filesz ≤ buffer.length)
    (hmod : dyn_meta.p_filesz % 16 ≠ 0) :
    read_dynamic_section buffer dyn_meta = none := by
  have hslice := sliceRange_of_le buffer dyn_meta.p_offset
    (dyn_meta.p_offset + dyn_meta.p_filesz) (by omega) hb
  have hlen : ((buffer.drop dyn_meta.p_offset).take
      (dyn_meta.p_offset + dyn_meta.p_filesz - dyn_meta.p_offset)).length
      = dyn_meta.p_filesz := by
    rw [List.length_take, List.length_drop, Nat.add_sub_cancel_left]
    exact min_eq_left (by omega)
  have hndvd : ¬ (16 ∣ ((buffer.drop dyn_meta.p_offset).take
      (dyn_meta.p_offset + dyn_meta.p_filesz - dyn_meta.p_offset)).length) := by
    rw [hlen, Nat.dvd_iff_mod_eq_zero]
    exact hmod
  obtain ⟨c, hc, hcne⟩ := chunks_exists_ne 16 (by omega) _ _ (Nat.le_refl _) hndvd
  have hmapnone : mapOpt decodeDynChunk
      (chunks 16 ((buffer.drop dyn_meta.p_offset).take
        (dyn_meta.p_offset + dyn_meta.p_filesz - dyn_meta.p_offset))) = none :=
    mapOpt_eq_none_of_mem _ _ c hc (decodeDynChunk_of_len_ne c hcne)
  have hdyn : dynElements buffer dyn_meta.p_offset dyn_meta.p_filesz = none := by
    unfold dynElements
    rw [hslice]
    exact hmapnone
  unfold read_dynamic_section
  rw [hdyn]

/-- Claim C10 witness: a 17-byte dynamic segment (17 is not a multiple of
16) makes the decoder panic. -/
theorem claim_C10_witness :
    (0 + 17 ≤ (List.replicate 17 (0 : Nat)).length) ∧ (17 % 16 ≠ 0) ∧
    read_dynamic_section (List.replicate 17 0)
      { p_type := ElfSegmentType.PtDynamic, p_offset := 0, p_filesz := 17 } = none :=
  ⟨by decide, by decide, claim_C10 _ _ (by decide) (by decide)⟩

/-- Claim C9: on an in-bounds dynamic segment whose size is a multiple of
16, the decoder produces one element per 16-byte chunk: the i-th element's
tag is classified from the 8 little-endian bytes at byte 16*i of the
segment and its payload is the 8 little-endian bytes at 16*i+8; tag value 1
is Needed, 5 is StringTableOffset, 10 is StringTableSize, and every other
value is Other (ignored). -/
theorem claim_C9 (buffer : List Nat) (offset size : Nat)
    (hb : offset + size ≤ buffer.length) (hdvd : size % 16 = 0) :
    (∃ elts : List DynSectionElement,
        dynElements buffer offset size = some elts ∧
        elts.length = size / 16 ∧
        ∀ i, i < size / 16 → elts[i]? = some
          { d_tag := DynSectionTag.fromVal (leVal ((buffer.drop (offset + 16 * i)).take 8)),
            d_thing := leVal ((buffer.drop (offset + 16 * i + 8)).take 8) }) ∧
    DynSectionTag.fromVal 1 = DynSectionTag.DtNeeded ∧
    DynSectionTag.fromVal 5 = DynSectionTag.DtStrTab ∧
    DynSectionTag.fromVal 10 = DynSectionTag.DtStrSz ∧
    (∀ v, v ≠ 1 → v ≠ 5 → v ≠ 10 → DynSectionTag.fromVal v = DynSectionTag.Irrelevant) := by
  have hslice := sliceRange_of_le buffer offset (offset + size) (by omega) hb
  rw [Nat.add_sub_cancel_left] at hslice
  have hlen : ((buffer.drop offset).take size).length = size := by
    rw [List.length_take, List.length_drop]
    exact min_eq_left (by omega)
  have hdvd16 : 16 ∣ ((buffer.drop offset).take size).length := by
    rw [hlen]
    exact Nat.dvd_iff_mod_eq_zero.mpr hdvd
  have hchlen : ∀ c ∈ chunks 16 ((buffer.drop offset).take size), c.length = 16 :=
    fun c hc => chunks_mem_length 16 (by omega) _ _ c (Nat.le_refl _) hdvd16 hc
  have hall : ∀ c ∈ chunks 16 ((buffer.drop offset).take size), (decodeDynChunk c).isSome := by
    intro c hc
    rw [decodeDynChunk_of_len16 c (hchlen c hc)]
    rfl
  obtain ⟨elts, helts⟩ := mapOpt_forall_some _ _ hall
  obtain ⟨hlen2, hpt⟩ := mapOpt_eq_some _ _ elts helts
  have hclen : (chunks 16 ((buffer.drop offset).take size)).length = size / 16 := by
    have h0 := chunks_length_of_dvd 16 (by omega)
      ((buffer.drop offset).take size).length ((buffer.drop offset).take size)
      (Nat.le_refl _) hdvd16
    calc (chunks 16 ((buffer.drop offset).take size)).length
        = ((buffer.drop offset).take size).length / 16 := h0
      _ = size / 16 := by rw [hlen]
  have hsz : 16 * (size / 16) = size := Nat.mul_div_cancel' (Nat.dvd_iff_mod_eq_zero.mpr hdvd)
  refine ⟨⟨elts, ?_, ?_, ?_⟩, rfl, rfl, rfl, ?_⟩
  · unfold dynElements
    rw [hslice]
    exact helts
  · rw [hlen2, hclen]
  · intro i hi
    have hik : 16 * i + 16 ≤ size := by
      have h1 : 16 * (i + 1) ≤ 16 * (size / 16) :=
        Nat.mul_le_mul (Nat.le_refl 16) (by omega)
      rw [Nat.mul_succ, hsz] at h1
      exact h1
    have hich : (chunks 16 ((buffer.drop offset).take size))[i]? =
        some ((((buffer.drop offset).take size).drop (16 * i)).take 16) := by
      rw [chunks_getElem? 16 (by omega) i]
      rw [if_neg (by rw [hlen]; omega)]
    have hchunk : (((buffer.drop offset).take size).drop (16 * i)).take 16
        = (buffer.drop (offset + 16 * i)).take 16 :=
      seg_drop_take buffer offset size (16 * i) 16 hik
    have hchlen16 : ((buffer.drop (offset + 16 * i)).take 16).length = 16 := by
      apply List.length_take_of_le
      rw [List.length_drop]
      omega
    have htake : ((buffer.drop (offset + 16 * i)).take 16).take 8
        = (buffer.drop (offset + 16 * i)).take 8 :=
      take_take_of_le _ 8 16 (by omega)
    have hdrop : ((buffer.drop (offset + 16 * i)).take 16).drop 8
        = (buffer.drop (offset + 16 * i + 8)).take 8 := by
      rw [List.drop_take, List.drop_drop]
    have := hpt i _ hich
    rw [hchunk] at this
    rw [decodeDynChunk_of_len16 _ hchlen16, htake, hdrop] at this
    exact this
  · intro v h1 h5 h10
    unfold DynSectionTag.fromVal
    rw [if_neg h1, if_neg h5, if_neg h10]

/-- Claim C9 witness: a single-element segment where the tag bytes decode
to 1 (Needed) and the payload bytes to 2. -/
theorem claim_C9_witness :
    (0 + 16 ≤ ([1, 0, 0, 0, 0, 0, 0, 0, 2, 0, 0, 0, 0, 0, 0, 0] : List Nat).length ∧
      16 % 16 = 0) ∧
    (∃ elts : List DynSectionElement,
        dynElements [1, 0, 0, 0, 0, 0, 0, 0, 2, 0, 0, 0, 0, 0, 0, 0] 0 16 = some elts ∧
        elts.length = 16 / 16) ∧
    DynSectionTag.fromVal 1 = DynSectionTag.DtNeeded :=
  ⟨⟨by decide, by decide⟩,
   (claim_C9 [1, 0, 0, 0, 0, 0, 0, 0, 2, 0, 0, 0, 0, 0, 0, 0] 0 16
      (by decide) (by decide)).1.elim (fun e he => ⟨e, he.1, he.2.1⟩),
   (claim_C9 [1, 0, 0, 0, 0, 0, 0, 0, 2, 0, 0, 0, 0, 0, 0, 0] 0 16
      (by decide) (by decide)).2.1⟩

theorem fromVal_eq_dyn_iff (v : Nat) :
    ElfSegmentType.fromVal v = ElfSegmentType.PtDynamic ↔ v = 2 := by
  unfold ElfSegmentType.fromVal
  by_cases h : v = 2
  · rw [if_pos h]
    simp [h]
  · rw [if_neg h]
    simp [h]

/-- Claim C6: on an in-bounds program-header table whose entry size covers
the decoded fields, the scanner always returns a value (never crashes);
when no entry's type field decodes to 2 (Dynamic) it returns `some none`
(the missing-dynamic-segment outcome); and when entry i is the first whose
type field decodes to 2, it returns exactly that entry. -/
theorem claim_C6 (buffer : List Nat) (h_meta : Elf64SHeaderMeta)
    (hb : h_meta.e_phoff + h_meta.e_phentsize * h_meta.e_phnum ≤ buffer.length)
    (hsz : 0x28 ≤ h_meta.e_phentsize) :
    (∃ res, extract_program_section_meta buffer h_meta = some res) ∧
    ((∀ i, i < h_meta.e_phnum →
        leVal ((buffer.drop (h_meta.e_phoff + h_meta.e_phentsize * i)).take 4) ≠ 2) →
      extract_program_section_meta buffer h_meta = some none) ∧
    (∀ i, i < h_meta.e_phnum →
      leVal ((buffer.drop (h_meta.e_phoff + h_meta.e_phentsize * i)).take 4) = 2 →
      (∀ j, j < i →
        leVal ((buffer.drop (h_meta.e_phoff + h_meta.e_phentsize * j)).take 4) ≠ 2) →
      extract_program_section_meta buffer h_meta = some (some
        { p_type := ElfSegmentType.PtDynamic,
          p_offset :=
            leVal ((buffer.drop (h_meta.e_phoff + h_meta.e_phentsize * i + 8)).take 8),
          p_filesz :=
            leVal ((buffer.drop (h_meta.e_phoff + h_meta.e_phentsize * i + 0x20)).take 8) })) := by
  have hslice := sliceRange_of_le buffer h_meta.e_phoff
    (h_meta.e_phoff + h_meta.e_phentsize * h_meta.e_phnum) (by omega) hb
  rw [Nat.add_sub_cancel_left] at hslice
  have hlen : ((buffer.drop h_meta.e_phoff).take (h_meta.e_phentsize * h_meta.e_phnum)).length
      = h_meta.e_phentsize * h_meta.e_phnum := by
    rw [List.length_take, List.length_drop]
    exact min_eq_left (by omega)
  have hdvdn : h_meta.e_phentsize ∣
      ((buffer.drop h_meta.e_phoff).take (h_meta.e_phentsize * h_meta.e_phnum)).length := by
    rw [hlen]
    exact Dvd.intro _ rfl
  have hchlen : ∀ c ∈ chunks h_meta.e_phentsize
      ((buffer.drop h_meta.e_phoff).take (h_meta.e_phentsize * h_meta.e_phnum)),
      c.length = h_meta.e_phentsize :=
    fun c hc => chunks_mem_length h_meta.e_phentsize (by omega) _ _ c (Nat.le_refl _) hdvdn hc
  have hall : ∀ c ∈ chunks h_meta.e_phentsize
      ((buffer.drop h_meta.e_phoff).take (h_meta.e_phentsize * h_meta.e_phnum)),
      (decodeProgramSectionChunk c).isSome := by
    intro c hc
    rw [decodeProgramSectionChunk_of_le c (by rw [hchlen c hc]; exact hsz)]
    rfl
  obtain ⟨secs, hsecs⟩ := mapOpt_forall_some _ _ hall
  obtain ⟨hlen2, hpt⟩ := mapOpt_eq_some _ _ secs hsecs
  have hclen : (chunks h_meta.e_phentsize
      ((buffer.drop h_meta.e_phoff).take (h_meta.e_phentsize * h_meta.e_phnum))).length
      = h_meta.e_phnum := by
    have h0 := chunks_length_of_dvd h_meta.e_phentsize (by omega)
      ((buffer.drop h_meta.e_phoff).take (h_meta.e_phentsize * h_meta.e_phnum)).length
      ((buffer.drop h_meta.e_phoff).take (h_meta.e_phentsize * h_meta.e_phnum))
      (Nat.le_refl _) hdvdn
    calc (chunks h_meta.e_phentsize
        ((buffer.drop h_meta.e_phoff).take (h_meta.e_phentsize * h_meta.e_phnum))).length
        = ((buffer.drop h_meta.e_phoff).take
            (h_meta.e_phentsize * h_meta.e_phnum)).length / h_meta.e_phentsize := h0
      _ = h_meta.e_phentsize * h_meta.e_phnum / h_meta.e_phentsize := by rw [hlen]
      _ = h_meta.e_phnum := Nat.mul_div_cancel_left _ (by omega)
  have hseclen : secs.length = h_meta.e_phnum := hlen2.trans hclen
  have hsec_i : ∀ i, i < h_meta.e_phnum → secs[i]? = some
      { p_type := ElfSegmentType.fromVal
          (leVal ((buffer.drop (h_meta.e_phoff + h_meta.e_phentsize * i)).take 4)),
        p_offset :=
          leVal ((buffer.drop (h_meta.e_phoff + h_meta.e_phentsize * i + 8)).take 8),
        p_filesz :=
          leVal ((buffer.drop (h_meta.e_phoff + h_meta.e_phentsize * i + 0x20)).take 8) } := by
    intro i hi
    have hik : h_meta.e_phentsize * i + h_meta.e_phentsize
        ≤ h_meta.e_phentsize * h_meta.e_phnum := by
      have h1 : h_meta.e_phentsize * (i + 1) ≤ h_meta.e_phentsize * h_meta.e_phnum :=
        Nat.mul_le_mul (Nat.le_refl _) (by omega)
      rw [Nat.mul_succ] at h1
      exact h1
    have hich : (chunks h_meta.e_phentsize
        ((buffer.drop h_meta.e_phoff).take (h_meta.e_phentsize * h_meta.e_phnum)))[i]?
        = some ((((buffer.drop h_meta.e_phoff).take
            (h_meta.e_phentsize * h_meta.e_phnum)).drop (h_meta.e_phentsize * i)).take
              h_meta.e_phentsize) := by
      rw [chunks_getElem? h_meta.e_phentsize (by omega) i]
      rw [if_neg (by rw [hlen]; omega)]
    have hchunk : (((buffer.drop h_meta.e_phoff).take
        (h_meta.e_phentsize * h_meta.e_phnum)).drop (h_meta.e_phentsize * i)).take
          h_meta.e_phentsize
        = (buffer.drop (h_meta.e_phoff + h_meta.e_phentsize * i)).take h_meta.e_phentsize :=
      seg_drop_take buffer h_meta.e_phoff (h_meta.e_phentsize * h_meta.e_phnum)
        (h_meta.e_phentsize * i) h_meta.e_phentsize hik
    have hchlen_i : ((buffer.drop (h_meta.e_phoff + h_meta.e_phentsize * i)).take
        h_meta.e_phentsize).length = h_meta.e_phentsize := by
      apply List.length_take_of_le
      rw [List.length_drop]
      omega
    have h4 : ((buffer.drop (h_meta.e_phoff + h_meta.e_phentsize * i)).take
        h_meta.e_phentsize).take 4
        = (buffer.drop (h_meta.e_phoff + h_meta.e_phentsize * i)).take 4 :=
      take_take_of_le _ 4 h_meta.e_phentsize (by omega)
    have h8 : (((buffer.drop (h_meta.e_phoff + h_meta.e_phentsize * i)).take
        h_meta.e_phentsize).drop 8).take 8
        = (buffer.drop (h_meta.e_phoff + h_meta.e_phentsize * i + 8)).take 8 := by
      rw [List.drop_take, take_take_of_le _ 8 (h_meta.e_phentsize - 8) (by omega),
        List.drop_drop]
    have h32 : (((buffer.drop (h_meta.e_phoff + h_meta.e_phentsize * i)).take
        h_meta.e_phentsize).drop 0x20).take 8
        = (buffer.drop (h_meta.e_phoff + h_meta.e_phentsize * i + 0x20)).take 8 := by
      rw [List.drop_take, take_take_of_le _ 8 (h_meta.e_phentsize - 0x20) (by omega),
        List.drop_drop]
    have hthis := hpt i _ hich
    rw [hchunk] at hthis
    rw [decodeProgramSectionChunk_of_le _ (by rw [hchlen_i]; exact hsz)] at hthis
    rw [h4, h8, h32] at hthis
    exact hthis
  have hmain : extract_program_section_meta buffer h_meta
      = some ((secs.filter fun sec =>
          decide (sec.p_type = ElfSegmentType.PtDynamic)).head?) := by
    unfold extract_program_section_meta
    simp only [hslice]
    rw [if_neg (by omega : ¬ (h_meta.e_phentsize = 0))]
    rw [hsecs]
  have hfind : extract_program_section_meta buffer h_meta
      = some (secs.find? fun sec => decide (sec.p_type = ElfSegmentType.PtDynamic)) := by
    rw [hmain, head?_filter_eq_find?]
  refine ⟨⟨_, hfind⟩, ?_, ?_⟩
  · intro hno
    rw [hfind]
    have hnone : secs.find? (fun sec => decide (sec.p_type = ElfSegmentType.PtDynamic))
        = none := by
      rw [List.find?_eq_none]
      intro x hx
      obtain ⟨i, hxi⟩ := List.mem_iff_getElem?.mp hx
      have hilt : i < secs.length := by
        rcases List.getElem?_eq_some.mp hxi with ⟨hlt, _⟩
        exact hlt
      have hinum : i < h_meta.e_phnum := by
        rw [hseclen] at hilt
        exact hilt
      have hrec := hsec_i i hinum
      obtain rfl := Option.some_inj.mp (hrec.symm.trans hxi)
      intro hpx
      rw [decide_eq_true_eq] at hpx
      exact hno i hinum ((fromVal_eq_dyn_iff _).mp hpx)
    rw [hnone]
  · intro i hi hvi hprev
    rw [hfind]
    have hfound : secs.find? (fun sec => decide (sec.p_type = ElfSegmentType.PtDynamic))
        = some
          { p_type := ElfSegmentType.fromVal
                (leVal ((buffer.drop (h_meta.e_phoff + h_meta.e_phentsize * i)).take 4)),
            p_offset :=
              leVal ((buffer.drop (h_meta.e_phoff + h_meta.e_phentsize * i + 8)).take 8),
            p_filesz :=
              leVal ((buffer.drop (h_meta.e_phoff + h_meta.e_phentsize * i + 0x20)).take 8) } := by
      apply find?_eq_some_of_first _ secs i _ (hsec_i i hi)
      · rw [decide_eq_true_eq]
        exact (fromVal_eq_dyn_iff _).mpr hvi
      · intro j b hj hb'
        have hjnum : j < h_meta.e_phnum := lt_trans hj hi
        have hrec := hsec_i j hjnum
        obtain rfl := Option.some_inj.mp (hrec.symm.trans hb')
        rw [decide_eq_false_iff_not]
        intro hpx
        exact hprev j hj ((fromVal_eq_dyn_iff _).mp hpx)
    rw [hfound, hvi]
    rfl

/-- Claim C6 witness: a one-entry table with type value 0 yields the
missing-dynamic-segment result, not a crash. -/
theorem claim_C6_witness :
    extract_program_section_meta (List.replicate 40 0)
      { e_phoff := 0, e_phentsize := 40, e_phnum := 1 } = some none :=
  (claim_C6 _ _ (by decide) (by decide)).2.1 (by decide)
